import Mathlib

/-!
Verification of the request-handling pipeline of jadouse5/ai-website.

The repository holds three near-identical Flask applications
(`app-gemini.py`, `app-groq.py`, `app-mercury.py`).  Strings are modelled
as `List Char`; the Python string operations the code uses (`strip`,
`replace` with an empty or single-character pattern, `in`,
`split(m, 1)` reassembly, `upper`) are given executable models, and the
route handlers become pure state-passing functions.
-/

/-- The six ASCII whitespace characters removed by Python `str.strip()`
(no other whitespace occurs in this development). -/
def isPySpace (c : Char) : Bool :=
  c = ' ' || c = '\t' || c = '\n' || c = '\r' || c = '\x0b' || c = '\x0c'

/-- Python `str.lstrip()`. -/
def lstrip (s : List Char) : List Char := s.dropWhile isPySpace

/-- Python `str.rstrip()`. -/
def rstrip (s : List Char) : List Char := (s.reverse.dropWhile isPySpace).reverse

/-- Python `str.strip()`. -/
def stripBoth (s : List Char) : List Char := rstrip (lstrip s)

/-- Python substring membership `pat in s`. -/
def containsSub (pat : List Char) : List Char → Bool
  | [] => pat.isEmpty
  | c :: rest => pat.isPrefixOf (c :: rest) || containsSub pat rest

/-- The suffix of `s` that starts at the first occurrence of `pat`
(`[]` when there is none).  When `pat in s`, this is exactly the Python
reassembly `pat + s.split(pat, 1)[1]`. -/
def dropFromFirst (pat : List Char) : List Char → List Char
  | [] => []
  | c :: rest => if pat.isPrefixOf (c :: rest) then c :: rest else dropFromFirst pat rest

/-- Python `s.replace(a, b)` for a one-character pattern `a`: every
occurrence of `a` becomes `b`. -/
def replaceChar (a b : Char) : List Char → List Char
  | [] => []
  | c :: rest => (if c = a then b else c) :: replaceChar a b rest

/-- The backtick character. -/
def tick : Char := '`'

/-- The markdown fence marker, three backticks. -/
def fence : List Char := [tick, tick, tick]

/-- The tagged markdown fence marker (three backticks then `html`). -/
def fenceHtml : List Char := fence ++ ['h', 't', 'm', 'l']

/-- Python `s.replace('```html', '')`: scan left to right, removing each
non-overlapping occurrence of the tagged fence. -/
def removeFenceHtml : List Char → List Char
  | c1 :: c2 :: c3 :: c4 :: c5 :: c6 :: c7 :: rest =>
      if c1 = tick ∧ c2 = tick ∧ c3 = tick ∧ c4 = 'h' ∧ c5 = 't' ∧ c6 = 'm' ∧ c7 = 'l' then
        removeFenceHtml rest
      else
        c1 :: removeFenceHtml (c2 :: c3 :: c4 :: c5 :: c6 :: c7 :: rest)
  | s => s

/-- Python `s.replace('```', '')`: scan left to right, removing each
non-overlapping occurrence of the fence. -/
def removeFence : List Char → List Char
  | c1 :: c2 :: c3 :: rest =>
      if c1 = tick ∧ c2 = tick ∧ c3 = tick then removeFence rest
      else c1 :: removeFence (c2 :: c3 :: rest)
  | s => s

/-- The document-type declaration marker. -/
def doctype : List Char := "<!DOCTYPE html>".data

/-- The opening root-element tag marker. -/
def htmlOpen : List Char := "<html".data

/-- The fence-removal steps shared by all three variants:
`generated_html.replace('```html', '').replace('```', '')`. -/
def stripFences (s : List Char) : List Char := removeFence (removeFenceHtml s)

/-- The prefix-trim step of `app-gemini.py` lines 80-84 and
`app-groq.py` lines 100-104: keep the suffix from the first document
marker when one is present. -/
def prefixTrim (s : List Char) : List Char :=
  if containsSub doctype s then dropFromFirst doctype s
  else if containsSub htmlOpen s then dropFromFirst htmlOpen s
  else s

/-- The response sanitizer of `app-gemini.py` (lines 74-85). -/
def sanitizeGemini (s : List Char) : List Char := prefixTrim (stripFences (stripBoth s))

/-- The response sanitizer of `app-groq.py` (lines 94-105), textually
identical to the gemini one. -/
def sanitizeGroq (s : List Char) : List Char := prefixTrim (stripFences (stripBoth s))

/-- The response sanitizer of `app-mercury.py` (lines 70-75): strip and
fence removal only; there is no prefix-trim step in this variant. -/
def sanitizeMercury (s : List Char) : List Char := stripFences (stripBoth s)

/-! The application model: prompt store, routes, composition, startup. -/

/-- The process-wide mutable state: the single global
`current_system_prompt` of each variant. -/
structure AppState where
  current_system_prompt : List Char
deriving DecidableEq

/-- The initial system prompt of `app-gemini.py` (lines 28-36, the
adjacent Python string literals concatenated). -/
def initPromptGemini : List Char :=
  ("You are a professional web developer. Your task is to generate complete, " ++
   "modern, and well-structured HTML for a web page based on the user's request. " ++
   "You must include the full HTML structure, including <!DOCTYPE html>, <html>, " ++
   "<head>, and <body> tags. Use Tailwind CSS for styling by including the " ++
   "official Tailwind CDN link in the <head> section. Always include clickable " ++
   "buttons and navigation links to other pages. Make sure all buttons are functional " ++
   "and lead to relevant pages.").data

/-- The initial system prompt of `app-groq.py` (lines 28-56; the bullet
fragments are adjacent literals with no separator, so they concatenate
without newlines except for the explicit escape sequences). -/
def initPromptGroq : List Char :=
  ("You are an elite UI/UX architect and full-stack developer specializing in cutting-edge web experiences. " ++
   "Create stunning, modern HTML pages that push the boundaries of web design. Your output must be:" ++
   "\n\n🎨 VISUAL EXCELLENCE:" ++
   "- Use advanced Tailwind CSS with custom animations, gradients, and glassmorphism effects" ++
   "- Implement dark/light mode toggle with smooth transitions" ++
   "- Add subtle parallax scrolling, hover animations, and micro-interactions" ++
   "- Use modern typography with variable fonts and perfect spacing" ++
   "- Include beautiful hero sections with animated backgrounds" ++
   "\n\n⚡ INTERACTIVE COMPONENTS:" ++
   "- Create responsive navigation with mobile hamburger menu" ++
   "- Add interactive cards, modals, and dropdown menus" ++
   "- Implement smooth scroll behavior and section transitions" ++
   "- Include loading animations and skeleton screens" ++
   "- Add interactive forms with real-time validation styling" ++
   "\n\n🚀 MODERN FEATURES:" ++
   "- Use CSS Grid and Flexbox for perfect layouts" ++
   "- Implement progressive disclosure and accordion components" ++
   "- Add search functionality with live filtering" ++
   "- Include social media integration and sharing buttons" ++
   "- Create interactive dashboards with charts and metrics" ++
   "\n\n📱 RESPONSIVE DESIGN:" ++
   "- Mobile-first approach with perfect tablet and desktop scaling" ++
   "- Touch-friendly interactions and gesture support" ++
   "- Optimized performance with lazy loading" ++
   "\n\nAlways include complete HTML structure with <!DOCTYPE html>, proper meta tags, " ++
   "Tailwind CSS CDN, and ensure all interactive elements are functional. " ++
   "Make every page feel like a premium, modern web application.").data

/-- The initial system prompt of `app-mercury.py` (lines 25-33),
textually identical to the gemini one. -/
def initPromptMercury : List Char :=
  ("You are a professional web developer. Your task is to generate complete, " ++
   "modern, and well-structured HTML for a web page based on the user's request. " ++
   "You must include the full HTML structure, including <!DOCTYPE html>, <html>, " ++
   "<head>, and <body> tags. Use Tailwind CSS for styling by including the " ++
   "official Tailwind CDN link in the <head> section. Always include clickable " ++
   "buttons and navigation links to other pages. Make sure all buttons are functional " ++
   "and lead to relevant pages.").data

/-- An HTTP request method, as Flask's `request.method` distinguishes it
in `change_prompt`. -/
inductive Method
  | get
  | post

/-- The confirmation page returned after a successful prompt update
(the same f-string literal, holding no placeholder, in all three
variants). -/
def confirmationPage : List Char :=
  ("\n            <!DOCTYPE html>\n            <html>\n            <head>\n" ++
   "                <title>Prompt Updated</title>\n" ++
   "                <script src=\"https://cdn.tailwindcss.com\"></script>\n" ++
   "            </head>\n            <body class=\"bg-gray-100 p-8\">\n" ++
   "                <div class=\"max-w-2xl mx-auto bg-white p-6 rounded-lg shadow-lg\">\n" ++
   "                    <h1 class=\"text-2xl font-bold text-green-600 mb-4\">System Prompt Updated Successfully!</h1>\n" ++
   "                    <p class=\"mb-4\">The new system prompt has been applied.</p>\n" ++
   "                    <div class=\"space-x-4\">\n" ++
   "                        <a href=\"/\" class=\"bg-blue-500 hover:bg-blue-700 text-white font-bold py-2 px-4 rounded\">Go to Home</a>\n" ++
   "                        <a href=\"/change-prompt\" class=\"bg-gray-500 hover:bg-gray-700 text-white font-bold py-2 px-4 rounded\">Change Prompt Again</a>\n" ++
   "                    </div>\n                </div>\n            </body>\n" ++
   "            </html>\n            ").data

/-- The literal chunk of the editor form before the spliced current
prompt (the f-string of the GET branch up to
`{current_system_prompt}`). -/
def formPre : List Char :=
  ("\n    <!DOCTYPE html>\n    <html>\n    <head>\n" ++
   "        <title>Change System Prompt</title>\n" ++
   "        <script src=\"https://cdn.tailwindcss.com\"></script>\n" ++
   "    </head>\n    <body class=\"bg-gray-100 p-8\">\n" ++
   "        <div class=\"max-w-4xl mx-auto bg-white p-6 rounded-lg shadow-lg\">\n" ++
   "            <h1 class=\"text-3xl font-bold mb-6\">Change System Prompt</h1>\n" ++
   "            <form method=\"POST\" class=\"space-y-4\">\n                <div>\n" ++
   "                    <label for=\"new_prompt\" class=\"block text-sm font-medium text-gray-700 mb-2\">Current System Prompt:</label>\n" ++
   "                    <textarea name=\"new_prompt\" id=\"new_prompt\" rows=\"10\" class=\"w-full p-3 border border-gray-300 rounded-md focus:ring-blue-500 focus:border-blue-500\">").data

/-- The literal chunk of the editor form after the spliced current
prompt. -/
def formSuf : List Char :=
  ("</textarea>\n                </div>\n" ++
   "                <div class=\"space-x-4\">\n" ++
   "                    <button type=\"submit\" class=\"bg-green-500 hover:bg-green-700 text-white font-bold py-2 px-4 rounded\">Update Prompt</button>\n" ++
   "                    <a href=\"/\" class=\"bg-gray-500 hover:bg-gray-700 text-white font-bold py-2 px-4 rounded inline-block\">Cancel</a>\n" ++
   "                </div>\n            </form>\n        </div>\n    </body>\n" ++
   "    </html>\n    ").data

/-- The editor form (the GET body of `/change-prompt`) with the current
system prompt spliced into the textarea. -/
def formPage (prompt : List Char) : List Char := formPre ++ prompt ++ formSuf

/-- The `/change-prompt` route handler, the same code in all three
variants.  Flask's `request.form.get('new_prompt')` is `none` when the
field is absent; Python truthiness sends both `none` and the empty
string down to the GET form. -/
def change_prompt (st : AppState) (m : Method) (new_prompt : Option (List Char)) :
    AppState × List Char :=
  match m, new_prompt with
  | .post, some np =>
      if np ≠ [] then ({ current_system_prompt := np }, confirmationPage)
      else (st, formPage st.current_system_prompt)
  | .post, none => (st, formPage st.current_system_prompt)
  | .get, _ => (st, formPage st.current_system_prompt)

/-- The path-to-topic translation at the top of each variant's
`catch_all`: an empty path means the home page, otherwise
`path.replace('/', ' ').replace('_', ' ')`. -/
def pageNameOfPath (path : List Char) : List Char :=
  if path = [] then "home".data
  else replaceChar '_' ' ' (replaceChar '/' ' ' path)

/-- Python `str.upper()` on the ASCII topic phrases used by
`app-groq.py` (Char.toUpper maps the ASCII range exactly as Python
does there). -/
def pyUpper (s : List Char) : List Char := s.map Char.toUpper

/-- The page-request template of `app-gemini.py` (lines 169-180) before
the spliced topic phrase. -/
def geminiTmplPre : List Char := "Generate the HTML for a page about '".data

/-- The page-request template of `app-gemini.py` after the spliced topic
phrase (trailing spaces before the line breaks are in the source). -/
def geminiTmplSuf : List Char :=
  ("'. The page should have a clean and modern design. \n" ++
   "    Make the content interesting and relevant to the topic. If it's a product, include a price and a buy button. \n" ++
   "    If it's a blog post, make it informative. \n    \n" ++
   "    IMPORTANT: Include the following navigation elements:\n" ++
   "    - A navigation bar with links to: /about, /products, /blog, /contact\n" ++
   "    - A \"Change System Prompt\" button that links to /change-prompt\n" ++
   "    - At least 3 clickable buttons that lead to different pages (be creative with the links)\n" ++
   "    - Make sure all buttons and links are properly styled with Tailwind CSS\n" ++
   "    - Include hover effects on all interactive elements\n    \n" ++
   "    The page should feel like a real website with functional navigation.").data

/-- The page prompt the gemini variant builds from the topic phrase. -/
def pagePromptGemini (page_name : List Char) : List Char :=
  geminiTmplPre ++ page_name ++ geminiTmplSuf

/-- The page prompt the mercury variant builds (`app-mercury.py`
lines 162-173), textually identical to the gemini template. -/
def pagePromptMercury (page_name : List Char) : List Char :=
  geminiTmplPre ++ page_name ++ geminiTmplSuf

/-- The groq page-request template (lines 188-224) before the uppercased
topic phrase. -/
def groqTmplPre : List Char := "🚀 CREATE AN EXCEPTIONAL '".data

/-- The groq template between the uppercased topic and its second,
unchanged splice. -/
def groqTmplMid : List Char :=
  ("' PAGE:\n    \n    📋 CONTENT REQUIREMENTS:\n" ++
   "    - Generate rich, engaging content relevant to '").data

/-- The groq template after the second topic splice. -/
def groqTmplSuf : List Char :=
  ("'\n    - Include interactive elements: counters, progress bars, live data displays\n" ++
   "    - Add testimonials, reviews, or user-generated content sections\n" ++
   "    - Implement search/filter functionality where applicable\n" ++
   "    - Include call-to-action sections with conversion-optimized design\n    \n" ++
   "    🎯 MANDATORY UI COMPONENTS:\n" ++
   "    - Stunning hero section with animated gradient background\n" ++
   "    - Responsive navigation bar with smooth mobile hamburger menu\n" ++
   "    - \"Change System Prompt\" button (styled as premium feature)\n" ++
   "    - Minimum 5 interactive buttons/cards leading to: /dashboard, /analytics, /settings, /profile, /explore\n" ++
   "    - Floating action button (FAB) for quick actions\n" ++
   "    - Breadcrumb navigation for better UX\n" ++
   "    - Footer with social links and newsletter signup\n    \n" ++
   "    ✨ ADVANCED FEATURES TO IMPLEMENT:\n" ++
   "    - Dark/light mode toggle with system preference detection\n" ++
   "    - Loading skeletons and smooth page transitions\n" ++
   "    - Interactive charts or data visualizations (using CSS/SVG)\n" ++
   "    - Modal dialogs and toast notifications\n" ++
   "    - Infinite scroll or pagination components\n" ++
   "    - Real-time search with autocomplete suggestions\n" ++
   "    - Drag-and-drop interfaces where relevant\n" ++
   "    - Progressive web app features (offline indicators)\n    \n" ++
   "    🎨 VISUAL EXCELLENCE:\n" ++
   "    - Glassmorphism cards with backdrop blur effects\n" ++
   "    - Animated icons and micro-interactions\n" ++
   "    - Custom CSS animations for scroll-triggered reveals\n" ++
   "    - Beautiful color schemes with proper contrast ratios\n" ++
   "    - Typography hierarchy with perfect spacing\n" ++
   "    - Subtle shadows and depth for modern layering\n    \n" ++
   "    Make this the most impressive, modern TUI experience possible!").data

/-- The page prompt the groq variant builds from the topic phrase. -/
def pagePromptGroq (page_name : List Char) : List Char :=
  groqTmplPre ++ pyUpper page_name ++ groqTmplMid ++ page_name ++ groqTmplSuf

/-- The separator literal between the stored system prompt and the page
request, shared by all three variants. -/
def sepUserRequest : List Char := "\n\n---USER REQUEST---\n".data

/-- Python `full_prompt = current_system_prompt +
f"\n\n---USER REQUEST---\n{page_prompt}"`, identical in all variants. -/
def fullPrompt (st : AppState) (page_prompt : List Char) : List Char :=
  st.current_system_prompt ++ sepUserRequest ++ page_prompt

/-- The `clean_prompt` instruction prefix of `app-gemini.py` line 68. -/
def geminiCleanInstr : List Char :=
  ("Generate ONLY complete, functional HTML code. Do not include any explanations, " ++
   "comments, or text before/after the HTML. Start directly with <!DOCTYPE html> and " ++
   "end with </html>. No markdown formatting.\n\n").data

/-- The outbound prompt the gemini variant sends:
`clean_prompt = "Generate ONLY..." + full_prompt`. -/
def composeGemini (st : AppState) (page_prompt : List Char) : List Char :=
  geminiCleanInstr ++ fullPrompt st page_prompt

/-- The groq variant's fixed system message (line 81), sent alongside
the composed user message. -/
def groqSystemMessage : List Char :=
  ("You are an elite UI/UX architect. Generate ONLY complete, functional HTML code. " ++
   "Do not include any explanations, comments, or text before/after the HTML. Start " ++
   "directly with <!DOCTYPE html> and end with </html>. No markdown formatting.").data

/-- The groq variant's outbound user-message content (the full prompt
itself). -/
def composeGroq (st : AppState) (page_prompt : List Char) : List Char :=
  fullPrompt st page_prompt

/-- The mercury variant's outbound message content (the full prompt
itself). -/
def composeMercury (st : AppState) (page_prompt : List Char) : List Char :=
  fullPrompt st page_prompt

/-- The result of the gemini adapter call (`model.generate_content` with
text extraction): the raw text, or the message of a raised exception. -/
inductive GeminiCall
  | ok (text : List Char)
  | exn (msg : List Char)

/-- The result of the groq adapter call. -/
inductive GroqCall
  | ok (text : List Char)
  | exn (msg : List Char)

/-- The result of the mercury HTTP call: an HTTP response with status
code and extracted content, or the message of a raised exception
(network failures and malformed response bodies both raise). -/
inductive MercuryCall
  | http (statusCode : Nat) (content : List Char)
  | exn (msg : List Char)

/-- The error fragment of `app-gemini.py` line 89. -/
def geminiErrBody (e : List Char) : List Char :=
  "<h1>Error: Could not connect to the Google Gemini API</h1><p>".data ++ e ++ "</p>".data

/-- The error fragment of `app-groq.py` line 109. -/
def groqErrBody (e : List Char) : List Char :=
  "<h1>Error: Could not connect to the Groq API</h1><p>".data ++ e ++ "</p>".data

/-- The error fragment of `app-mercury.py` line 83 (caught exception). -/
def mercuryExnBody (e : List Char) : List Char :=
  "<h1>Error: Could not connect to the Inception Labs API</h1><p>".data ++ e ++ "</p>".data

/-- The error fragment of `app-mercury.py` line 79 (non-200 status). -/
def mercuryHttpErrBody (code : Nat) : List Char :=
  "<h1>Error: API request failed</h1><p>Status code: ".data ++
    (Nat.repr code).data ++ "</p>".data

/-- `generate_html_with_llm` of `app-gemini.py`, given the adapter
outcome for the composed prompt: sanitize on success, the error
fragment on a caught exception. -/
def generate_html_gemini : GeminiCall → List Char
  | .ok text => sanitizeGemini text
  | .exn e => geminiErrBody e

/-- `generate_html_with_llm` of `app-groq.py`. -/
def generate_html_groq : GroqCall → List Char
  | .ok text => sanitizeGroq text
  | .exn e => groqErrBody e

/-- `generate_html_with_llm` of `app-mercury.py`: sanitize on status
200, a status-code error fragment otherwise, an exception fragment when
the call raised. -/
def generate_html_mercury : MercuryCall → List Char
  | .http code content =>
      if code = 200 then sanitizeMercury content else mercuryHttpErrBody code
  | .exn e => mercuryExnBody e

/-- A Flask `Response(body, mimetype='text/html')`; the status defaults
to 200. -/
structure HttpResponse where
  body : List Char
  status : Nat
  mimetype : List Char
deriving DecidableEq

/-- The catch-all route of `app-gemini.py`: the state is read, never
written; the single adapter call (on the composed prompt) is modelled by
`outcome`; the body is returned as a 200 `text/html` response. -/
def catch_all_gemini (st : AppState) (outcome : GeminiCall) :
    AppState × HttpResponse :=
  (st, { body := generate_html_gemini outcome, status := 200, mimetype := "text/html".data })

/-- The catch-all route of `app-groq.py`. -/
def catch_all_groq (st : AppState) (outcome : GroqCall) :
    AppState × HttpResponse :=
  (st, { body := generate_html_groq outcome, status := 200, mimetype := "text/html".data })

/-- The catch-all route of `app-mercury.py`. -/
def catch_all_mercury (st : AppState) (outcome : MercuryCall) :
    AppState × HttpResponse :=
  (st, { body := generate_html_mercury outcome, status := 200, mimetype := "text/html".data })

/-- What the module-level startup check decides before the server would
run: `exit()` or fall through to serving. -/
inductive StartupAction
  | halt
  | serve
deriving DecidableEq

/-- The placeholder sentinel `app-gemini.py` line 16 compares against. -/
def geminiPlaceholder : List Char := "your-fallback-api-key-here".data

/-- Startup of `app-gemini.py` (lines 10-19): `os.environ.get` defaults
to `""`; a falsy key or the placeholder calls `exit()` before the app
serves. -/
def startupGemini (env : Option (List Char)) : StartupAction :=
  let key := env.getD []
  if key = [] ∨ key = geminiPlaceholder then .halt else .serve

/-- Startup record of `app-groq.py` (lines 10-21): the client is always
built with the key as found, a falsy or empty key only prints a
warning. -/
structure GroqStartup where
  warned : Bool
  action : StartupAction
  clientKey : List Char

/-- Startup of `app-groq.py`: never halts. -/
def startupGroq (env : Option (List Char)) : GroqStartup :=
  let key := env.getD []
  { warned := decide (key = [] ∨ key = "".data), action := .serve, clientKey := key }

/-- Startup of `app-mercury.py` (lines 10-16): a falsy or empty key
calls `exit()` before the app serves. -/
def startupMercury (env : Option (List Char)) : StartupAction :=
  let key := env.getD []
  if key = [] ∨ key = "".data then .halt else .serve

/-! Basic facts about the modelled Python string primitives. -/

theorem containsSub_of_isPrefixOf {pat s : List Char} (h : pat.isPrefixOf s = true) :
    containsSub pat s = true := by
  cases s with
  | nil =>
      cases pat with
      | nil => rfl
      | cons p ps => simp [List.isPrefixOf] at h
  | cons c rest => simp [containsSub, h]

theorem containsSub_of_pref {pat s : List Char} (h : pat <+: s) : containsSub pat s = true :=
  containsSub_of_isPrefixOf (List.isPrefixOf_iff_prefix.mpr h)

theorem containsSub_sandwich (pat a b : List Char) :
    containsSub pat (a ++ (pat ++ b)) = true := by
  induction a with
  | nil => simpa using containsSub_of_pref (List.prefix_append pat b)
  | cons c a ih => simp [containsSub, ih]

theorem containsSub_iff_exists (pat s : List Char) :
    containsSub pat s = true ↔ ∃ a b, s = a ++ (pat ++ b) := by
  constructor
  · intro h
    induction s with
    | nil =>
        refine ⟨[], [], ?_⟩
        cases pat with
        | nil => rfl
        | cons p ps => simp [containsSub] at h
    | cons c rest ih =>
        rw [containsSub, Bool.or_eq_true] at h
        rcases h with h | h
        · rcases List.isPrefixOf_iff_prefix.mp h with ⟨t, ht⟩
          exact ⟨[], t, ht.symm⟩
        · rcases ih h with ⟨a, b, hab⟩
          exact ⟨c :: a, b, by rw [hab]; rfl⟩
  · rintro ⟨a, b, rfl⟩
    exact containsSub_sandwich pat a b

theorem containsSub_of_within {pat t s : List Char} (hinf : t <:+: s)
    (h : containsSub pat t = true) : containsSub pat s = true := by
  rcases (containsSub_iff_exists pat t).mp h with ⟨a, b, rfl⟩
  rcases hinf with ⟨u, v, rfl⟩
  have hre : u ++ (a ++ (pat ++ b)) ++ v = (u ++ a) ++ (pat ++ (b ++ v)) := by simp
  rw [hre]
  exact containsSub_sandwich _ _ _

theorem containsSub_false_of_within {pat t s : List Char} (hinf : t <:+: s)
    (h : containsSub pat s = false) : containsSub pat t = false := by
  cases hc : containsSub pat t with
  | false => rfl
  | true => rw [containsSub_of_within hinf hc] at h; exact h

theorem containsSub_false_of_short {pat s : List Char} (h : s.length < pat.length) :
    containsSub pat s = false := by
  induction s with
  | nil =>
      cases pat with
      | nil => simp at h
      | cons p ps => rfl
  | cons c rest ih =>
      have h1 : pat.isPrefixOf (c :: rest) = false := by
        cases hp : pat.isPrefixOf (c :: rest) with
        | false => rfl
        | true =>
            have := List.IsPrefix.length_le (List.isPrefixOf_iff_prefix.mp hp)
            simp only [List.length_cons] at h this
            omega
      have h2 : containsSub pat rest = false := by
        refine ih ?_
        simp only [List.length_cons] at h
        omega
      simp [containsSub, h1, h2]

theorem dropFromFirst_suffix (pat s : List Char) : dropFromFirst pat s <:+ s := by
  induction s with
  | nil => exact List.suffix_refl []
  | cons c rest ih =>
      rw [dropFromFirst]
      split
      · exact List.suffix_refl _
      · exact ih.trans (List.suffix_cons c rest)

theorem isPrefixOf_dropFromFirst {pat s : List Char} (h : containsSub pat s = true) :
    pat.isPrefixOf (dropFromFirst pat s) = true := by
  induction s with
  | nil =>
      cases pat with
      | nil => rfl
      | cons p ps => simp [containsSub] at h
  | cons c rest ih =>
      rw [dropFromFirst]
      split
      · next hp => exact hp
      · next hp =>
          refine ih ?_
          rw [containsSub, Bool.or_eq_true] at h
          rcases h with h | h
          · exact absurd h hp
          · exact h

theorem dropFromFirst_first {pat : List Char} :
    ∀ {s : List Char}, containsSub pat s = true →
      ∃ pre, s = pre ++ dropFromFirst pat s ∧
        ∀ i, i < pre.length → pat.isPrefixOf (s.drop i) = false := by
  intro s h
  induction s with
  | nil => exact ⟨[], rfl, fun i hi => by simp at hi⟩
  | cons c rest ih =>
      by_cases hp : pat.isPrefixOf (c :: rest) = true
      · refine ⟨[], ?_, fun i hi => by simp at hi⟩
        rw [dropFromFirst, if_pos hp]
        rfl
      · have hb : pat.isPrefixOf (c :: rest) = false := by
          cases hx : pat.isPrefixOf (c :: rest) with
          | false => rfl
          | true => exact absurd hx hp
        have hrest : containsSub pat rest = true := by
          rw [containsSub, Bool.or_eq_true] at h
          rcases h with h | h
          · exact absurd h hp
          · exact h
        rcases ih hrest with ⟨pre, heq, hfirst⟩
        refine ⟨c :: pre, ?_, ?_⟩
        · rw [dropFromFirst, if_neg hp, List.cons_append, ← heq]
        · intro i hi
          cases i with
          | zero => simpa using hb
          | succ j =>
              simp only [List.drop_succ_cons]
              exact hfirst j (by simpa using Nat.lt_of_succ_lt_succ hi)

theorem dropFromFirst_of_isPrefixOf {pat s : List Char}
    (h : pat.isPrefixOf s = true) (hpat : pat ≠ []) : dropFromFirst pat s = s := by
  cases s with
  | nil =>
      cases pat with
      | nil => exact absurd rfl hpat
      | cons p ps => simp [List.isPrefixOf] at h
  | cons c rest => rw [dropFromFirst, if_pos h]

theorem replaceChar_eq_map (a b : Char) (s : List Char) :
    replaceChar a b s = s.map (fun c => if c = a then b else c) := by
  induction s with
  | nil => rfl
  | cons c rest ih => simp [replaceChar, ih]

/-! Facts about the model of Python `strip`. -/

theorem dropWhile_head_false {p : Char → Bool} :
    ∀ {l : List Char} {c : Char}, (l.dropWhile p).head? = some c → p c = false := by
  intro l
  induction l with
  | nil => intro c h; simp at h
  | cons x rest ih =>
      intro c h
      rw [List.dropWhile_cons] at h
      split at h
      · exact ih h
      · next hx =>
          simp only [List.head?_cons, Option.some.injEq] at h
          subst h
          simpa using hx

theorem lstrip_head_false {s : List Char} {c : Char} (h : (lstrip s).head? = some c) :
    isPySpace c = false := dropWhile_head_false h

theorem rstrip_pref (s : List Char) : rstrip s <+: s := by
  rcases List.dropWhile_suffix (l := s.reverse) isPySpace with ⟨u, hu⟩
  refine ⟨u.reverse, ?_⟩
  have hrev := congrArg List.reverse hu
  simpa [rstrip, List.reverse_append] using hrev

theorem rstrip_last_false {s : List Char} {c : Char} (h : (rstrip s).getLast? = some c) :
    isPySpace c = false := by
  rw [rstrip, ← List.head?_reverse, List.reverse_reverse] at h
  exact dropWhile_head_false h

theorem stripBoth_within (s : List Char) : stripBoth s <:+: s :=
  ((rstrip_pref (lstrip s)).isInfix).trans (List.dropWhile_suffix isPySpace).isInfix

theorem stripBoth_head_false {s : List Char} {c : Char} (h : (stripBoth s).head? = some c) :
    isPySpace c = false := by
  rcases rstrip_pref (lstrip s) with ⟨t, ht⟩
  rw [stripBoth] at h
  have hh : (lstrip s).head? = some c := by
    rw [← ht]
    cases hsb : rstrip (lstrip s) with
    | nil => rw [hsb] at h; simp at h
    | cons x xs => rw [hsb] at h; simpa using h
  exact lstrip_head_false hh

theorem stripBoth_last_false {s : List Char} {c : Char} (h : (stripBoth s).getLast? = some c) :
    isPySpace c = false := rstrip_last_false h

theorem lstrip_eq_self {s : List Char}
    (h : ∀ c, s.head? = some c → isPySpace c = false) : lstrip s = s := by
  cases s with
  | nil => rfl
  | cons x rest => simp [lstrip, List.dropWhile_cons, h x rfl]

theorem rstrip_eq_self {s : List Char}
    (h : ∀ c, s.getLast? = some c → isPySpace c = false) : rstrip s = s := by
  rw [rstrip]
  have hrev : s.reverse.dropWhile isPySpace = s.reverse := by
    cases hr : s.reverse with
    | nil => rfl
    | cons x rest =>
        have hx : s.getLast? = some x := by
          rw [← List.head?_reverse, hr]
          rfl
        simp [List.dropWhile_cons, h x hx]
  rw [hrev, List.reverse_reverse]

theorem stripBoth_eq_self {s : List Char}
    (hh : ∀ c, s.head? = some c → isPySpace c = false)
    (hl : ∀ c, s.getLast? = some c → isPySpace c = false) : stripBoth s = s := by
  rw [stripBoth, lstrip_eq_self hh, rstrip_eq_self hl]

theorem stripBoth_idem (s : List Char) : stripBoth (stripBoth s) = stripBoth s :=
  stripBoth_eq_self (fun _ h => stripBoth_head_false h) (fun _ h => stripBoth_last_false h)

theorem getLast?_of_suffix {t s : List Char} (h : t <:+ s) (hne : t ≠ []) :
    t.getLast? = s.getLast? := by
  rcases h with ⟨u, rfl⟩
  exact (List.getLast?_append_of_ne_nil u hne).symm

/-! Facts about the fence-removal scans. -/

theorem cons_pref_split {p c : Char} {ps u : List Char} :
    (p :: ps).isPrefixOf (c :: u) = true ↔ (p = c ∧ ps.isPrefixOf u = true) := by
  simp [List.isPrefixOf]

theorem nil_pref (u : List Char) : ([] : List Char).isPrefixOf u = true := by
  cases u <;> rfl

theorem removeFence_short {s : List Char}
    (h : ∀ (c1 c2 c3 : Char) (rest : List Char), s = c1 :: c2 :: c3 :: rest → False) :
    removeFence s = s := by
  rcases s with _ | ⟨a, _ | ⟨b, _ | ⟨c, r⟩⟩⟩
  · rfl
  · rfl
  · rfl
  · exact absurd rfl (h a b c r)

theorem fence_pref_iff {c1 c2 c3 : Char} {rest : List Char} :
    fence.isPrefixOf (c1 :: c2 :: c3 :: rest) = true ↔
      (c1 = tick ∧ c2 = tick ∧ c3 = tick) := by
  rw [show fence = tick :: tick :: tick :: [] from rfl,
    cons_pref_split, cons_pref_split, cons_pref_split]
  simp only [nil_pref, and_true]
  constructor
  · rintro ⟨h1, h2, h3⟩
    exact ⟨h1.symm, h2.symm, h3.symm⟩
  · rintro ⟨h1, h2, h3⟩
    exact ⟨h1.symm, h2.symm, h3.symm⟩

theorem removeFence_eq_self {s : List Char} (h : containsSub fence s = false) :
    removeFence s = s := by
  induction s using removeFence.induct with
  | case1 c1 c2 c3 rest hg ih =>
      exfalso
      have hpf : fence.isPrefixOf (c1 :: c2 :: c3 :: rest) = true := fence_pref_iff.mpr hg
      rw [containsSub, hpf] at h
      simp at h
  | case2 c1 c2 c3 rest hg ih =>
      have h2 : containsSub fence (c2 :: c3 :: rest) = false := by
        rw [containsSub] at h
        exact (Bool.or_eq_false_iff.mp h).2
      rw [removeFence, if_neg hg, ih h2]
  | case3 s hs => exact removeFence_short hs

theorem removeFence_head {s : List Char} (h : fence.isPrefixOf s = false) :
    (removeFence s).head? = s.head? := by
  rcases s with _ | ⟨a, _ | ⟨b, _ | ⟨c, r⟩⟩⟩
  · rfl
  · rfl
  · rfl
  · have hg : ¬(a = tick ∧ b = tick ∧ c = tick) := by
      intro hc
      rw [fence_pref_iff.mpr hc] at h
      simp at h
    rw [removeFence, if_neg hg]
    rfl

theorem removeFence_no_two {s : List Char} (h : [tick, tick].isPrefixOf s = false) :
    [tick, tick].isPrefixOf (removeFence s) = false := by
  rcases s with _ | ⟨a, _ | ⟨b, _ | ⟨c, r⟩⟩⟩
  · exact h
  · exact h
  · exact h
  · by_cases hg : a = tick ∧ b = tick ∧ c = tick
    · exfalso
      rcases hg with ⟨rfl, rfl, rfl⟩
      have hpf : [tick, tick].isPrefixOf (tick :: tick :: tick :: r) = true := by
        simp [List.isPrefixOf]
      rw [hpf] at h
      simp at h
    · rw [removeFence, if_neg hg]
      by_cases ha : a = tick
      · subst ha
        have hb : b ≠ tick := by
          intro hb
          subst hb
          have hpf : [tick, tick].isPrefixOf (tick :: tick :: c :: r) = true := by
            simp [List.isPrefixOf]
          rw [hpf] at h
          simp at h
        have hbp : fence.isPrefixOf (b :: c :: r) = false := by
          cases hfb : fence.isPrefixOf (b :: c :: r) with
          | false => rfl
          | true =>
              rw [show fence = tick :: [tick, tick] from rfl] at hfb
              rcases cons_pref_split.mp hfb with ⟨he, -⟩
              exact absurd he.symm hb
        have hhead := removeFence_head hbp
        cases hv : removeFence (b :: c :: r) with
        | nil => simp [List.isPrefixOf]
        | cons x xs =>
            rw [hv] at hhead
            have hx : x = b := by simpa using hhead
            subst hx
            cases hfp : [tick, tick].isPrefixOf (tick :: x :: xs) with
            | false => rfl
            | true =>
                rcases cons_pref_split.mp hfp with ⟨-, h1⟩
                rcases cons_pref_split.mp h1 with ⟨he, -⟩
                exact absurd he.symm hb
      · cases hfp : [tick, tick].isPrefixOf (a :: removeFence (b :: c :: r)) with
        | false => rfl
        | true =>
            rcases cons_pref_split.mp hfp with ⟨he, -⟩
            exact absurd he.symm ha

theorem removeFence_no_fence (s : List Char) :
    containsSub fence (removeFence s) = false := by
  induction s using removeFence.induct with
  | case1 c1 c2 c3 rest hg ih =>
      rw [removeFence, if_pos hg]
      exact ih
  | case2 c1 c2 c3 rest hg ih =>
      rw [removeFence, if_neg hg, containsSub]
      have h1 : fence.isPrefixOf (c1 :: removeFence (c2 :: c3 :: rest)) = false := by
        by_cases hc1 : c1 = tick
        · subst hc1
          have hg2 : ¬(c2 = tick ∧ c3 = tick) := fun hc => hg ⟨rfl, hc.1, hc.2⟩
          have hnt : [tick, tick].isPrefixOf (c2 :: c3 :: rest) = false := by
            cases h2t : [tick, tick].isPrefixOf (c2 :: c3 :: rest) with
            | false => rfl
            | true =>
                rcases cons_pref_split.mp h2t with ⟨he2, hr⟩
                rcases cons_pref_split.mp hr with ⟨he3, -⟩
                exact absurd ⟨he2.symm, he3.symm⟩ hg2
          have hv := removeFence_no_two hnt
          cases hfp : fence.isPrefixOf (tick :: removeFence (c2 :: c3 :: rest)) with
          | false => rfl
          | true =>
              have hfp' : [tick, tick].isPrefixOf (removeFence (c2 :: c3 :: rest)) = true := by
                have := hfp
                rw [show fence = tick :: [tick, tick] from rfl] at this
                exact (cons_pref_split.mp this).2
              rw [hfp'] at hv
              simp at hv
        · cases hfp : fence.isPrefixOf (c1 :: removeFence (c2 :: c3 :: rest)) with
          | false => rfl
          | true =>
              have hfp' := hfp
              rw [show fence = tick :: [tick, tick] from rfl] at hfp'
              rcases cons_pref_split.mp hfp' with ⟨he, -⟩
              exact absurd he.symm hc1
      rw [h1, ih]
      rfl
  | case3 s hs =>
      rw [removeFence_short hs]
      refine containsSub_false_of_short ?_
      rcases s with _ | ⟨a, _ | ⟨b, _ | ⟨c, r⟩⟩⟩
      · simp [fence]
      · simp [fence]
      · simp [fence]
      · exact absurd rfl (hs a b c r)

theorem removeFenceHtml_short {s : List Char}
    (h : ∀ (c1 c2 c3 c4 c5 c6 c7 : Char) (rest : List Char),
      s = c1 :: c2 :: c3 :: c4 :: c5 :: c6 :: c7 :: rest → False) :
    removeFenceHtml s = s := by
  rcases s with _ | ⟨a1, _ | ⟨a2, _ | ⟨a3, _ | ⟨a4, _ | ⟨a5, _ | ⟨a6, _ | ⟨a7, r⟩⟩⟩⟩⟩⟩⟩
  · rfl
  · rfl
  · rfl
  · rfl
  · rfl
  · rfl
  · rfl
  · exact absurd rfl (h a1 a2 a3 a4 a5 a6 a7 r)

theorem fenceHtml_pref_iff {c1 c2 c3 c4 c5 c6 c7 : Char} {rest : List Char} :
    fenceHtml.isPrefixOf (c1 :: c2 :: c3 :: c4 :: c5 :: c6 :: c7 :: rest) = true ↔
      (c1 = tick ∧ c2 = tick ∧ c3 = tick ∧ c4 = 'h' ∧ c5 = 't' ∧ c6 = 'm' ∧ c7 = 'l') := by
  rw [show fenceHtml = tick :: tick :: tick :: 'h' :: 't' :: 'm' :: 'l' :: [] from rfl,
    cons_pref_split, cons_pref_split, cons_pref_split, cons_pref_split, cons_pref_split,
    cons_pref_split, cons_pref_split]
  simp only [nil_pref, and_true]
  constructor
  · rintro ⟨h1, h2, h3, h4, h5, h6, h7⟩
    exact ⟨h1.symm, h2.symm, h3.symm, h4.symm, h5.symm, h6.symm, h7.symm⟩
  · rintro ⟨h1, h2, h3, h4, h5, h6, h7⟩
    exact ⟨h1.symm, h2.symm, h3.symm, h4.symm, h5.symm, h6.symm, h7.symm⟩

theorem removeFenceHtml_eq_self {s : List Char} (h : containsSub fenceHtml s = false) :
    removeFenceHtml s = s := by
  induction s using removeFenceHtml.induct with
  | case1 c1 c2 c3 c4 c5 c6 c7 rest hg ih =>
      exfalso
      have hpf : fenceHtml.isPrefixOf (c1 :: c2 :: c3 :: c4 :: c5 :: c6 :: c7 :: rest) = true :=
        fenceHtml_pref_iff.mpr hg
      rw [containsSub, hpf] at h
      simp at h
  | case2 c1 c2 c3 c4 c5 c6 c7 rest hg ih =>
      have h2 : containsSub fenceHtml (c2 :: c3 :: c4 :: c5 :: c6 :: c7 :: rest) = false := by
        rw [containsSub] at h
        exact (Bool.or_eq_false_iff.mp h).2
      rw [removeFenceHtml, if_neg hg, ih h2]
  | case3 s hs => exact removeFenceHtml_short hs

theorem containsSub_fence_of_fenceHtml {s : List Char}
    (h : containsSub fenceHtml s = true) : containsSub fence s = true := by
  rcases (containsSub_iff_exists _ _).mp h with ⟨a, b, rfl⟩
  have hre : a ++ (fenceHtml ++ b) = a ++ (fence ++ (['h', 't', 'm', 'l'] ++ b)) := by
    simp [fenceHtml]
  rw [hre]
  exact containsSub_sandwich _ _ _

theorem stripFences_eq_self {s : List Char} (h : containsSub fence s = false) :
    stripFences s = s := by
  have h7 : containsSub fenceHtml s = false := by
    cases hc : containsSub fenceHtml s with
    | false => rfl
    | true => rw [containsSub_fence_of_fenceHtml hc] at h; exact h
  rw [stripFences, removeFenceHtml_eq_self h7, removeFence_eq_self h]

theorem stripFences_no_fence (s : List Char) :
    containsSub fence (stripFences s) = false :=
  removeFence_no_fence (removeFenceHtml s)

/-! Facts about the prefix-trim step. -/

theorem prefixTrim_suffix (s : List Char) : prefixTrim s <:+ s := by
  rw [prefixTrim]
  split
  · exact dropFromFirst_suffix _ _
  · split
    · exact dropFromFirst_suffix _ _
    · exact List.suffix_refl s

theorem prefixTrim_eq_self {s : List Char} (h1 : containsSub doctype s = false)
    (h2 : containsSub htmlOpen s = false) : prefixTrim s = s := by
  rw [prefixTrim, h1, h2]
  rfl

theorem head?_of_isPrefixOf_cons {p : Char} {ps u : List Char}
    (h : (p :: ps).isPrefixOf u = true) : u.head? = some p := by
  cases u with
  | nil => simp [List.isPrefixOf] at h
  | cons x xs => rw [cons_pref_split] at h; rw [h.1]; rfl

/-! Facts at the level of the full sanitizers. -/

theorem sanitizeGemini_no_fence (s : List Char) :
    containsSub fence (sanitizeGemini s) = false := by
  rw [sanitizeGemini]
  exact containsSub_false_of_within (prefixTrim_suffix _).isInfix
    (stripFences_no_fence (stripBoth s))

theorem sanitizeMercury_no_fence (s : List Char) :
    containsSub fence (sanitizeMercury s) = false :=
  stripFences_no_fence (stripBoth s)

theorem sanitizeGemini_fence_free {s : List Char} (hf : containsSub fence s = false) :
    sanitizeGemini s = prefixTrim (stripBoth s) := by
  rw [sanitizeGemini,
    stripFences_eq_self (containsSub_false_of_within (stripBoth_within s) hf)]

theorem sanitizeMercury_fence_free {s : List Char} (hf : containsSub fence s = false) :
    sanitizeMercury s = stripBoth s := by
  rw [sanitizeMercury,
    stripFences_eq_self (containsSub_false_of_within (stripBoth_within s) hf)]

theorem sanitize_no_markers {s : List Char} (hf : containsSub fence s = false)
    (hd : containsSub doctype s = false) (hh : containsSub htmlOpen s = false) :
    sanitizeGemini s = stripBoth s := by
  rw [sanitizeGemini_fence_free hf,
    prefixTrim_eq_self (containsSub_false_of_within (stripBoth_within s) hd)
      (containsSub_false_of_within (stripBoth_within s) hh)]

/-- The prefix trim of a stripped text is again stripped and again trimmed:
the fixed-point core of the idempotence analysis.  The marker head `'<'`
is not whitespace, and a suffix keeps the stripped text's last character. -/
theorem prefixTrim_stripBoth_fix (s : List Char) :
    prefixTrim (stripBoth (prefixTrim (stripBoth s))) = prefixTrim (stripBoth s) := by
  set t := stripBoth s with htdef
  have hlast : ∀ c, t.getLast? = some c → isPySpace c = false := fun c hc =>
    stripBoth_last_false (htdef ▸ hc)
  by_cases hd : containsSub doctype t = true
  · have hout : prefixTrim t = dropFromFirst doctype t := by
      rw [prefixTrim, if_pos hd]
    have hpref : doctype.isPrefixOf (dropFromFirst doctype t) = true :=
      isPrefixOf_dropFromFirst hd
    have hhead : (dropFromFirst doctype t).head? = some '<' := head?_of_isPrefixOf_cons hpref
    have hne : dropFromFirst doctype t ≠ [] := by
      intro hnil
      rw [hnil] at hhead
      simp at hhead
    have hstrip : stripBoth (dropFromFirst doctype t) = dropFromFirst doctype t := by
      refine stripBoth_eq_self (fun c hc => ?_) (fun c hc => ?_)
      · rw [hhead] at hc
        cases hc
        decide
      · rw [getLast?_of_suffix (dropFromFirst_suffix doctype t) hne] at hc
        exact hlast c hc
    rw [hout, hstrip, prefixTrim,
      if_pos (containsSub_of_isPrefixOf hpref),
      dropFromFirst_of_isPrefixOf hpref (by decide)]
  · have hdf : containsSub doctype t = false := by
      cases hx : containsSub doctype t with
      | false => rfl
      | true => exact absurd hx hd
    by_cases hh : containsSub htmlOpen t = true
    · have hout : prefixTrim t = dropFromFirst htmlOpen t := by
        rw [prefixTrim, hdf, if_pos hh]
        rfl
      have hpref : htmlOpen.isPrefixOf (dropFromFirst htmlOpen t) = true :=
        isPrefixOf_dropFromFirst hh
      have hhead : (dropFromFirst htmlOpen t).head? = some '<' := head?_of_isPrefixOf_cons hpref
      have hne : dropFromFirst htmlOpen t ≠ [] := by
        intro hnil
        rw [hnil] at hhead
        simp at hhead
      have hstrip : stripBoth (dropFromFirst htmlOpen t) = dropFromFirst htmlOpen t := by
        refine stripBoth_eq_self (fun c hc => ?_) (fun c hc => ?_)
        · rw [hhead] at hc
          cases hc
          decide
        · rw [getLast?_of_suffix (dropFromFirst_suffix htmlOpen t) hne] at hc
          exact hlast c hc
      have hdf2 : containsSub doctype (dropFromFirst htmlOpen t) = false :=
        containsSub_false_of_within (dropFromFirst_suffix htmlOpen t).isInfix hdf
      rw [hout, hstrip, prefixTrim, hdf2,
        if_pos (containsSub_of_isPrefixOf hpref),
        dropFromFirst_of_isPrefixOf hpref (by decide)]
      rfl
    · have hhf : containsSub htmlOpen t = false := by
        cases hx : containsSub htmlOpen t with
        | false => rfl
        | true => exact absurd hx hh
      have hout : prefixTrim t = t := prefixTrim_eq_self hdf hhf
      rw [hout, htdef, stripBoth_idem, ← htdef, hout]

theorem sanitizeGemini_idem_fence_free {s : List Char}
    (hf : containsSub fence s = false) :
    sanitizeGemini (sanitizeGemini s) = sanitizeGemini s := by
  have h1 : sanitizeGemini s = prefixTrim (stripBoth s) := sanitizeGemini_fence_free hf
  have hfo : containsSub fence (sanitizeGemini s) = false := sanitizeGemini_no_fence s
  rw [h1] at hfo ⊢
  rw [sanitizeGemini_fence_free hfo, prefixTrim_stripBoth_fix]

theorem sanitizeMercury_idem_fence_free {s : List Char}
    (hf : containsSub fence s = false) :
    sanitizeMercury (sanitizeMercury s) = sanitizeMercury s := by
  have h1 : sanitizeMercury s = stripBoth s := sanitizeMercury_fence_free hf
  have hfo : containsSub fence (sanitizeMercury s) = false := sanitizeMercury_no_fence s
  rw [h1] at hfo ⊢
  rw [sanitizeMercury_fence_free hfo, stripBoth_idem]

/-! Shared helper lemmas for the claim theorems. -/

theorem containsSub_middle (a p b : List Char) : containsSub p (a ++ p ++ b) = true := by
  rw [List.append_assoc]
  exact containsSub_sandwich p a b

theorem containsSub_err_frag {hd pre : List Char} (e suf : List Char)
    (hp : hd.isPrefixOf pre = true) : containsSub hd (pre ++ e ++ suf) = true :=
  containsSub_of_pref
    (((List.isPrefixOf_iff_prefix.mp hp).trans (List.prefix_append pre e)).trans
      (List.prefix_append (pre ++ e) suf))

set_option maxRecDepth 40000 in
theorem formPage_ne_confirmation (p : List Char) : formPage p ≠ confirmationPage := by
  intro h
  have h5 := congrArg (fun l : List Char => l[5]?) h
  simp only [formPage, List.append_assoc] at h5
  rw [List.getElem?_append_left (by decide : 5 < formPre.length)] at h5
  exact absurd h5 (by decide)

theorem replaceChar_replaceChar (p : List Char) :
    replaceChar '_' ' ' (replaceChar '/' ' ' p)
      = p.map (fun c => if c = '/' ∨ c = '_' then ' ' else c) := by
  rw [replaceChar_eq_map, replaceChar_eq_map, List.map_map]
  refine List.map_congr_left (fun c _ => ?_)
  by_cases h1 : c = '/'
  · subst h1; decide
  · by_cases h2 : c = '_'
    · subst h2; decide
    · simp [Function.comp, h1, h2]

/-! The claims. -/

/-- C1, counterexample: on the spec's own example input the mercury
variant's sanitizer does not discard the leading explanatory text, so the
prefix-trim rule does not hold for all three variants. -/
theorem C1_counterexample :
    sanitizeMercury "blah blah <!DOCTYPE html><html></html>".data
      ≠ "<!DOCTYPE html><html></html>".data := by decide

/-- C1 (amended): for the gemini and groq sanitizers (which are
textually identical), whenever the fence-stripped trimmed text contains
the document-type marker the result is exactly the suffix starting at
that marker's first occurrence, else likewise for the opening
root-element tag; on the spec's example both yield the document suffix.
The mercury sanitizer has no prefix-trim step and returns that example
unchanged. -/
theorem C1_trim_rule :
    (∀ s : List Char,
      containsSub doctype (stripFences (stripBoth s)) = true →
        doctype.isPrefixOf (sanitizeGemini s) = true ∧
        ∃ pre, stripFences (stripBoth s) = pre ++ sanitizeGemini s ∧
          ∀ i, i < pre.length →
            doctype.isPrefixOf ((stripFences (stripBoth s)).drop i) = false) ∧
    (∀ s : List Char,
      containsSub doctype (stripFences (stripBoth s)) = false →
      containsSub htmlOpen (stripFences (stripBoth s)) = true →
        htmlOpen.isPrefixOf (sanitizeGemini s) = true ∧
        ∃ pre, stripFences (stripBoth s) = pre ++ sanitizeGemini s ∧
          ∀ i, i < pre.length →
            htmlOpen.isPrefixOf ((stripFences (stripBoth s)).drop i) = false) ∧
    (∀ s : List Char, sanitizeGroq s = sanitizeGemini s) ∧
    sanitizeGemini "blah blah <!DOCTYPE html><html></html>".data
      = "<!DOCTYPE html><html></html>".data ∧
    sanitizeGroq "blah blah <!DOCTYPE html><html></html>".data
      = "<!DOCTYPE html><html></html>".data ∧
    sanitizeMercury "blah blah <!DOCTYPE html><html></html>".data
      = "blah blah <!DOCTYPE html><html></html>".data := by
  refine ⟨fun s h => ?_, fun s hd hh => ?_, fun s => rfl, by decide, by decide, by decide⟩
  · have hout : sanitizeGemini s = dropFromFirst doctype (stripFences (stripBoth s)) := by
      rw [sanitizeGemini, prefixTrim, if_pos h]
    refine ⟨by rw [hout]; exact isPrefixOf_dropFromFirst h, ?_⟩
    rcases dropFromFirst_first h with ⟨pre, heq, hfirst⟩
    exact ⟨pre, by rw [hout]; exact heq, hfirst⟩
  · have hout : sanitizeGemini s = dropFromFirst htmlOpen (stripFences (stripBoth s)) := by
      rw [sanitizeGemini, prefixTrim, hd, if_pos hh]
      rfl
    refine ⟨by rw [hout]; exact isPrefixOf_dropFromFirst hh, ?_⟩
    rcases dropFromFirst_first hh with ⟨pre, heq, hfirst⟩
    exact ⟨pre, by rw [hout]; exact heq, hfirst⟩

/-- C1 witness: concrete discharges of both trim branches. -/
theorem C1_trim_rule_witness :
    doctype.isPrefixOf (sanitizeGemini "junk <!DOCTYPE html>x".data) = true ∧
    htmlOpen.isPrefixOf (sanitizeGemini "junk <html>x".data) = true :=
  ⟨(C1_trim_rule.1 "junk <!DOCTYPE html>x".data (by decide)).1,
   (C1_trim_rule.2.1 "junk <html>x".data (by decide) (by decide)).1⟩

/-- C2: when the adapter call fails (a raised exception in any variant,
or a non-200 upstream status in the mercury variant), the catch-all
handler still returns a 200 `text/html` response whose body holds the
error heading and the failure detail, and the stored system prompt is
unchanged.  The model handlers are total functions invoked on exactly
one adapter outcome, so no exception escapes and no retry happens by
construction. -/
theorem C2_adapter_failure :
    (∀ (st : AppState) (e : List Char),
      (catch_all_gemini st (.exn e)).1 = st ∧
      (catch_all_gemini st (.exn e)).2.status = 200 ∧
      (catch_all_gemini st (.exn e)).2.mimetype = "text/html".data ∧
      containsSub "<h1>Error".data (catch_all_gemini st (.exn e)).2.body = true ∧
      containsSub e (catch_all_gemini st (.exn e)).2.body = true) ∧
    (∀ (st : AppState) (e : List Char),
      (catch_all_groq st (.exn e)).1 = st ∧
      (catch_all_groq st (.exn e)).2.status = 200 ∧
      (catch_all_groq st (.exn e)).2.mimetype = "text/html".data ∧
      containsSub "<h1>Error".data (catch_all_groq st (.exn e)).2.body = true ∧
      containsSub e (catch_all_groq st (.exn e)).2.body = true) ∧
    (∀ (st : AppState) (e : List Char),
      (catch_all_mercury st (.exn e)).1 = st ∧
      (catch_all_mercury st (.exn e)).2.status = 200 ∧
      (catch_all_mercury st (.exn e)).2.mimetype = "text/html".data ∧
      containsSub "<h1>Error".data (catch_all_mercury st (.exn e)).2.body = true ∧
      containsSub e (catch_all_mercury st (.exn e)).2.body = true) ∧
    (∀ (st : AppState) (code : Nat) (content : List Char), code ≠ 200 →
      (catch_all_mercury st (.http code content)).1 = st ∧
      (catch_all_mercury st (.http code content)).2.status = 200 ∧
      (catch_all_mercury st (.http code content)).2.mimetype = "text/html".data ∧
      containsSub "<h1>Error".data (catch_all_mercury st (.http code content)).2.body = true ∧
      containsSub ("Status code: ".data ++ (Nat.repr code).data)
        (catch_all_mercury st (.http code content)).2.body = true) := by
  refine ⟨fun st e => ⟨rfl, rfl, rfl, ?_, ?_⟩, fun st e => ⟨rfl, rfl, rfl, ?_, ?_⟩,
    fun st e => ⟨rfl, rfl, rfl, ?_, ?_⟩, fun st code content hc => ?_⟩
  · exact containsSub_err_frag e "</p>".data (by decide)
  · exact containsSub_middle _ e _
  · exact containsSub_err_frag e "</p>".data (by decide)
  · exact containsSub_middle _ e _
  · exact containsSub_err_frag e "</p>".data (by decide)
  · exact containsSub_middle _ e _
  · have hbody : (catch_all_mercury st (.http code content)).2.body
        = mercuryHttpErrBody code := by
      show generate_html_mercury (.http code content) = _
      rw [generate_html_mercury, if_neg hc]
    refine ⟨rfl, rfl, rfl, ?_, ?_⟩
    · rw [hbody, mercuryHttpErrBody]
      exact containsSub_err_frag (Nat.repr code).data "</p>".data (by decide)
    · rw [hbody, mercuryHttpErrBody]
      have hsplit : "<h1>Error: API request failed</h1><p>Status code: ".data
          = "<h1>Error: API request failed</h1><p>".data ++ "Status code: ".data := by decide
      rw [hsplit]
      have hmid := containsSub_middle "<h1>Error: API request failed</h1><p>".data
        ("Status code: ".data ++ (Nat.repr code).data) "</p>".data
      simpa [List.append_assoc] using hmid

/-- C2 witness: concrete discharge of the non-200 branch. -/
theorem C2_adapter_failure_witness :
    (catch_all_mercury ⟨initPromptMercury⟩ (.http 500 "x".data)).2.status = 200 ∧
    containsSub "<h1>Error".data
      (catch_all_mercury ⟨initPromptMercury⟩ (.http 500 "x".data)).2.body = true :=
  ⟨(C2_adapter_failure.2.2.2 ⟨initPromptMercury⟩ 500 "x".data (by decide)).2.1,
   (C2_adapter_failure.2.2.2 ⟨initPromptMercury⟩ 500 "x".data (by decide)).2.2.2.1⟩

/-- C3, counterexample: the sanitizer is not idempotent; removing the
fence of `"x ```"` exposes a trailing space that only the second
application strips. -/
theorem C3_counterexample :
    sanitizeGemini (sanitizeGemini "x ```".data) ≠ sanitizeGemini "x ```".data := by
  decide

/-- C3 (amended): each variant's sanitizer is idempotent on every input
that contains no fence marker; when fence markers are present a second
application can additionally strip whitespace newly exposed at the ends
by fence removal. -/
theorem C3_idem_fence_free :
    ∀ s : List Char, containsSub fence s = false →
      sanitizeGemini (sanitizeGemini s) = sanitizeGemini s ∧
      sanitizeGroq (sanitizeGroq s) = sanitizeGroq s ∧
      sanitizeMercury (sanitizeMercury s) = sanitizeMercury s :=
  fun _ hf => ⟨sanitizeGemini_idem_fence_free hf, sanitizeGemini_idem_fence_free hf,
    sanitizeMercury_idem_fence_free hf⟩

/-- C3 witness: a concrete fence-free input. -/
theorem C3_idem_fence_free_witness :
    sanitizeGemini (sanitizeGemini "  hello <html> world ".data)
      = sanitizeGemini "  hello <html> world ".data :=
  (C3_idem_fence_free "  hello <html> world ".data (by decide)).1

/-- C4: the path-to-topic translation maps the empty path to `"home"`
and every non-empty path to the path with each slash and each underscore
replaced by a space (slashes first, then underscores, which commute to
the single map shown), all other characters verbatim. -/
theorem C4_path_to_topic :
    pageNameOfPath [] = "home".data ∧
    (∀ p : List Char, p ≠ [] →
      pageNameOfPath p = p.map (fun c => if c = '/' ∨ c = '_' then ' ' else c)) ∧
    pageNameOfPath "a/b_c".data = "a b c".data := by
  refine ⟨rfl, fun p hp => ?_, by decide⟩
  rw [pageNameOfPath, if_neg hp, replaceChar_replaceChar]

/-- C4 witness: the map characterisation at the spec's example path. -/
theorem C4_path_to_topic_witness :
    pageNameOfPath "a/b_c".data
      = "a/b_c".data.map (fun c => if c = '/' ∨ c = '_' then ' ' else c) :=
  C4_path_to_topic.2.1 "a/b_c".data (by decide)

/-- C5: a POST to `/change-prompt` with a non-empty `new_prompt` stores
exactly that prompt and answers the confirmation page, and a subsequent
GET renders a form containing the new prompt; an empty or absent
`new_prompt` leaves the store unchanged and re-renders the GET form,
which is never the confirmation page. -/
theorem C5_prompt_editor :
    (∀ (st : AppState) (X : List Char), X ≠ [] →
      (change_prompt st .post (some X)).1.current_system_prompt = X ∧
      (change_prompt st .post (some X)).2 = confirmationPage ∧
      containsSub X (change_prompt (change_prompt st .post (some X)).1 .get none).2
        = true) ∧
    (∀ st : AppState,
      change_prompt st .post (some []) = (st, formPage st.current_system_prompt)) ∧
    (∀ st : AppState,
      change_prompt st .post none = (st, formPage st.current_system_prompt)) ∧
    (∀ st : AppState,
      (change_prompt st .post (some [])).2 = (change_prompt st .get none).2) ∧
    (∀ st : AppState, (change_prompt st .post (some [])).2 ≠ confirmationPage) := by
  refine ⟨fun st X hX => ?_, fun st => ?_, fun st => rfl, fun st => ?_, fun st => ?_⟩
  · have hpost : change_prompt st .post (some X) = (⟨X⟩, confirmationPage) := by
      simp [change_prompt, hX]
    rw [hpost]
    exact ⟨rfl, rfl, containsSub_middle formPre X formSuf⟩
  · simp [change_prompt]
  · simp [change_prompt]
  · show formPage st.current_system_prompt ≠ confirmationPage
    exact formPage_ne_confirmation st.current_system_prompt

/-- C5 witness: a concrete non-empty update. -/
theorem C5_prompt_editor_witness :
    (change_prompt ⟨initPromptGemini⟩ .post (some "X".data)).1.current_system_prompt
        = "X".data ∧
    containsSub "X".data
      (change_prompt (change_prompt ⟨initPromptGemini⟩ .post (some "X".data)).1
        .get none).2 = true :=
  ⟨(C5_prompt_editor.1 ⟨initPromptGemini⟩ "X".data (by decide)).1,
   (C5_prompt_editor.1 ⟨initPromptGemini⟩ "X".data (by decide)).2.2⟩

/-- C6: each variant's initial system prompt is non-empty, the editor
route preserves non-emptiness (it ignores empty submissions), and the
catch-all route never writes the prompt store. -/
theorem C6_prompt_nonempty :
    initPromptGemini ≠ [] ∧ initPromptGroq ≠ [] ∧ initPromptMercury ≠ [] ∧
    (∀ (st : AppState) (m : Method) (np : Option (List Char)),
      st.current_system_prompt ≠ [] →
      (change_prompt st m np).1.current_system_prompt ≠ []) ∧
    (∀ (st : AppState) (oc : GeminiCall), (catch_all_gemini st oc).1 = st) ∧
    (∀ (st : AppState) (oc : GroqCall), (catch_all_groq st oc).1 = st) ∧
    (∀ (st : AppState) (oc : MercuryCall), (catch_all_mercury st oc).1 = st) := by
  refine ⟨by decide, by decide, by decide, fun st m np h => ?_,
    fun st oc => rfl, fun st oc => rfl, fun st oc => rfl⟩
  cases m with
  | get => cases np <;> exact h
  | post =>
      cases np with
      | none => exact h
      | some v =>
          by_cases hv : v = []
          · subst hv
            have hred : change_prompt st .post (some [])
                = (st, formPage st.current_system_prompt) := by simp [change_prompt]
            rw [hred]
            exact h
          · have hred : (change_prompt st .post (some v)).1 = ⟨v⟩ := by
              simp [change_prompt, hv]
            rw [hred]
            exact hv

/-- C6 witness: an empty-submission step at a concrete state. -/
theorem C6_prompt_nonempty_witness :
    (change_prompt ⟨"p".data⟩ .post (some [])).1.current_system_prompt ≠ [] :=
  C6_prompt_nonempty.2.2.2.1 ⟨"p".data⟩ .post (some []) (by decide)

/-- C7: at startup, a missing key (the environment default is the empty
string) or the variant's placeholder sentinel makes the gemini and
mercury variants halt before serving, while the groq variant never
halts: it only records a warning and keeps the key, valid or not, in the
client it builds. -/
theorem C7_startup :
    (∀ env : Option (List Char),
      startupGemini env = .halt
        ↔ (env.getD [] = [] ∨ env.getD [] = geminiPlaceholder)) ∧
    startupGemini none = .halt ∧
    startupGemini (some geminiPlaceholder) = .halt ∧
    (∀ env : Option (List Char), startupMercury env = .halt ↔ env.getD [] = []) ∧
    startupMercury none = .halt ∧
    (∀ env : Option (List Char), (startupGroq env).action = .serve) ∧
    (startupGroq none).warned = true ∧
    (∀ env : Option (List Char), (startupGroq env).clientKey = env.getD []) := by
  refine ⟨fun env => ?_, by decide, ?_, fun env => ?_, by decide,
    fun env => rfl, by decide, fun env => rfl⟩
  · constructor
    · intro h
      by_cases hc : env.getD [] = [] ∨ env.getD [] = geminiPlaceholder
      · exact hc
      · rw [startupGemini, if_neg hc] at h
        exact absurd h (by decide)
    · intro hc
      rw [startupGemini, if_pos hc]
  · decide
  · have hnil : ("".data : List Char) = [] := rfl
    constructor
    · intro h
      by_cases hc : env.getD [] = []
      · exact hc
      · rw [startupMercury, if_neg (by rw [hnil]; simpa using hc)] at h
        exact absurd h (by decide)
    · intro hc
      rw [startupMercury, if_pos (Or.inl hc)]

/-- C7 witness: a missing key halts gemini but not groq. -/
theorem C7_startup_witness :
    startupGemini (some []) = .halt ∧ startupMercury (some []) = .halt :=
  ⟨(C7_startup.1 (some [])).mpr (Or.inl rfl), (C7_startup.2.2.2.1 (some [])).mpr rfl⟩

/-- C8: every composed outbound prompt is, verbatim, the stored system
prompt immediately followed by the separator literal and the per-variant
page template (the gemini variant additionally puts its clean-output
instruction in front), so an editor update is visible in the next
composition. -/
theorem C8_composer :
    (∀ (st : AppState) (pp : List Char),
      composeGemini st pp
        = geminiCleanInstr ++ (st.current_system_prompt ++ sepUserRequest ++ pp)) ∧
    (∀ (st : AppState) (pp : List Char),
      composeGroq st pp = st.current_system_prompt ++ sepUserRequest ++ pp) ∧
    (∀ (st : AppState) (pp : List Char),
      composeMercury st pp = st.current_system_prompt ++ sepUserRequest ++ pp) ∧
    (∀ (st : AppState) (pp : List Char),
      containsSub (st.current_system_prompt ++ sepUserRequest ++ pp)
        (composeGemini st pp) = true) ∧
    (∀ (st : AppState) (path : List Char),
      composeGemini st (pagePromptGemini (pageNameOfPath path))
        = geminiCleanInstr ++ (st.current_system_prompt ++ sepUserRequest ++
            pagePromptGemini (pageNameOfPath path)) ∧
      composeGroq st (pagePromptGroq (pageNameOfPath path))
        = st.current_system_prompt ++ sepUserRequest ++
            pagePromptGroq (pageNameOfPath path) ∧
      composeMercury st (pagePromptMercury (pageNameOfPath path))
        = st.current_system_prompt ++ sepUserRequest ++
            pagePromptMercury (pageNameOfPath path)) ∧
    (∀ (st : AppState) (X pp : List Char), X ≠ [] →
      composeGemini ((change_prompt st .post (some X)).1) pp
        = geminiCleanInstr ++ (X ++ sepUserRequest ++ pp) ∧
      composeGroq ((change_prompt st .post (some X)).1) pp
        = X ++ sepUserRequest ++ pp ∧
      composeMercury ((change_prompt st .post (some X)).1) pp
        = X ++ sepUserRequest ++ pp) := by
  refine ⟨fun st pp => rfl, fun st pp => rfl, fun st pp => rfl, fun st pp => ?_,
    fun st path => ⟨rfl, rfl, rfl⟩, fun st X pp hX => ?_⟩
  · have hs := containsSub_sandwich (st.current_system_prompt ++ sepUserRequest ++ pp)
      geminiCleanInstr []
    simp only [List.append_nil] at hs
    exact hs
  · have hred : (change_prompt st .post (some X)).1 = ⟨X⟩ := by
      simp [change_prompt, hX]
    rw [hred]
    exact ⟨rfl, rfl, rfl⟩

/-- C8 witness: a concrete editor update followed by a composition. -/
theorem C8_composer_witness :
    composeGroq ((change_prompt ⟨initPromptGroq⟩ .post (some "NEW".data)).1) "req".data
      = "NEW".data ++ sepUserRequest ++ "req".data :=
  (C8_composer.2.2.2.2.2 ⟨initPromptGroq⟩ "NEW".data "req".data (by decide)).2.1

/-- C9, counterexample: an input with a fence marker but no document
markers is changed beyond whitespace trimming (the fence is removed), so
the claim's "trimmed input unchanged" fails as stated. -/
theorem C9_counterexample :
    sanitizeGemini "```abc".data ≠ stripBoth "```abc".data := by decide

/-- C9 (amended): for every input containing no fence marker, no
document-type marker and no opening root-element tag, each variant's
sanitizer returns exactly the whitespace-trimmed input. -/
theorem C9_no_markers :
    ∀ s : List Char, containsSub fence s = false →
      containsSub doctype s = false → containsSub htmlOpen s = false →
      sanitizeGemini s = stripBoth s ∧ sanitizeGroq s = stripBoth s ∧
      sanitizeMercury s = stripBoth s :=
  fun _ hf hd hh =>
    ⟨sanitize_no_markers hf hd hh, sanitize_no_markers hf hd hh,
     sanitizeMercury_fence_free hf⟩

/-- C9 witness: a concrete marker-free input. -/
theorem C9_no_markers_witness :
    sanitizeGemini "  plain text  ".data = stripBoth "  plain text  ".data :=
  (C9_no_markers "  plain text  ".data (by decide) (by decide) (by decide)).1

/-- C10: no sanitizer output ever contains a triple-backtick: the
left-to-right removals neither leave nor re-create a fence, and the
prefix trim only takes a suffix. -/
theorem C10_no_fence_output :
    ∀ s : List Char,
      containsSub fence (sanitizeGemini s) = false ∧
      containsSub fence (sanitizeGroq s) = false ∧
      containsSub fence (sanitizeMercury s) = false :=
  fun s => ⟨sanitizeGemini_no_fence s, sanitizeGemini_no_fence s,
    sanitizeMercury_no_fence s⟩
